import Mathlib

/-!
Shallow embedding of the kubex crate's retry engine and discovery-cache
resolution layer, together with theorems settling the specification claims.

Source files embedded (Rust):
* `src/retry.rs` — `RetryLimit`, `RetryPolicy`, `next_backoff`,
  `retry_with_policy`.
* `src/lib.rs` — `APIResource` matching (`resource_matches_target`,
  `resolve_target`), `ResourceTargetSpec`, `resolve_all_targets`,
  `resolve_requested_resources_with_cache`.
* `src/discover.rs` — `DiscoveryCacheFile`, `load_discovery_cache`,
  `save_discovery_cache`, `resolve_requested_resources`.
* `src/_discover.rs` — `match_all_targets` (the only definition of that
  function in the repository; `src/discover.rs` calls it as
  `crate::match_all_targets`).

Modelling conventions:
* External effects are parameters: the filesystem is a partial map from a
  path string to file contents, JSON parsing/serialization (the external
  `serde_json` crate) is an explicit function argument, the remote
  discovery call is its outcome, clocks are explicit arguments.
* `Duration` values are natural numbers of nanoseconds (the resolution of
  Rust's `Duration`); `chrono` timestamps and `TimeDelta`s are integers of
  nanoseconds.
* The `f64` backoff multiplier is modelled as an exact rational;
  `Duration::mul_f64` becomes multiplication followed by rounding to the
  nearest nanosecond.
* A Rust panic (`Option::unwrap` on `None`) is modelled as `Option.none`.
* `async` plays no semantic role in the retry loop (the only await points
  are the operation itself and the sleep); the loop is embedded as a
  fuel-indexed recursion that also records the invocation count and the
  sequence of sleeps performed.
-/

/-! ## Data model: `APIResource` (the fields the crate reads)

`k8s_openapi::apimachinery::pkg::apis::meta::v1::APIResource` is an external
type; the embedding keeps exactly the fields this crate's code and the spec's
data model touch: optional group and version, kind, plural `name`,
`singular_name`, optional `short_names`, and the namespaced flag. -/

structure APIResource where
  group : Option String
  version : Option String
  kind : String
  name : String
  singular_name : String
  short_names : Option (List String)
  namespaced : Bool
deriving DecidableEq, Repr

/-! ## ResourceResolver (`src/lib.rs`) -/

/-- Embeds `resource_matches_target` (src/lib.rs:78-89): the token matches
the plural name, the singular name, any short name, or `"<plural>.<group>"`. -/
def resource_matches_target (target : String) (api_resource : APIResource) : Bool :=
  api_resource.name == target
    || api_resource.singular_name == target
    || (match api_resource.short_names with
        | some short_names => short_names.contains target
        | none => false)
    || (match api_resource.group with
        | some group => (api_resource.name ++ "." ++ group) == target
        | none => false)

/-- Embeds `resolve_target` (src/lib.rs:69-74): first matching descriptor in
list order, if any. -/
def resolve_target (target : String) (api_resources : List APIResource) : Option APIResource :=
  api_resources.find? (fun api_resource => resource_matches_target target api_resource)

/-- Embeds `ResourceTargetSpec` (src/lib.rs:93-100). -/
inductive ResourceTargetSpec where
  | allResources
  | allOf (targets : List String)
  | anyOf (targets : List String)
deriving DecidableEq, Repr

/-- Dedup key used by the `AnyOf` branch (src/lib.rs:135-140):
`"{name}|{group-or-empty}|{version-or-empty}"`. -/
def anyOfKey (api_resource : APIResource) : String :=
  api_resource.name ++ "|" ++ api_resource.group.getD "" ++ "|" ++ api_resource.version.getD ""

/-- Embeds `resolve_all_targets` (src/lib.rs:103-157). The two imperative
loops become left folds over the token list; the `HashSet` of seen `AnyOf`
keys becomes a list with membership test (set semantics, insertion order
irrelevant for a set). The `anyhow` error is modelled as its message
string. -/
def resolve_all_targets (spec : ResourceTargetSpec) (resources : List APIResource) :
    Except String (List APIResource) :=
  match spec with
  | .allResources => .ok resources
  | .allOf targets =>
    let acc := targets.foldl
      (fun (acc : List APIResource × List String) target =>
        match resolve_target target resources with
        | some api_resource => (acc.1 ++ [api_resource], acc.2)
        | none => (acc.1, acc.2 ++ [target]))
      ([], [])
    if acc.2.isEmpty then .ok acc.1
    else .error ("the following requested resources could not be resolved: "
      ++ String.intercalate ", " acc.2)
  | .anyOf targets =>
    let acc := targets.foldl
      (fun (acc : List String × List APIResource) target =>
        match resolve_target target resources with
        | some api_resource =>
          let key := anyOfKey api_resource
          if acc.1.contains key then acc
          else (acc.1 ++ [key], acc.2 ++ [api_resource])
        | none => acc)
      ([], [])
    if acc.2.isEmpty then
      .error ("none of the requested resources could be resolved: "
        ++ String.intercalate ", " targets)
    else .ok acc.2

/-! ## Retry engine (`src/retry.rs`) -/

/-- Embeds `RetryLimit` (src/retry.rs:11-16). `Finite` carries a
`NonZeroUsize` in the source; positivity is a hypothesis where it matters. -/
inductive RetryLimit where
  | unlimited
  | finite (n : Nat)
deriving DecidableEq, Repr

/-- Embeds `RetryPolicy` (src/retry.rs:20-31). Durations are nanoseconds;
the `f64` multiplier is an exact rational; the classifier is a Boolean
predicate over an arbitrary error type `E` (`kube::Error` in the source). -/
structure RetryPolicy (E : Type) where
  max_attempts : RetryLimit
  initial_backoff : Nat
  max_backoff : Nat
  backoff_multiplier : Rat
  is_retryable : E → Bool

/-- Models `Duration::mul_f64` for a nonnegative factor: exact rational
multiplication, rounded to the nearest nanosecond (`⌊x·q + 1/2⌋`, computed
on integers: `(2·x·num + den) / (2·den)` with Euclidean division, which is
floor division here since all quantities are nonnegative). -/
def mulRound (x : Nat) (q : Rat) : Nat :=
  ((2 * (x : Int) * q.num + (q.den : Int)) / (2 * (q.den : Int))).toNat

/-- Embeds `next_backoff` (src/retry.rs:88-92):
`current.mul_f64(multiplier.max(1.0)).min(max_backoff)`. -/
def next_backoff {E : Type} (current : Nat) (policy : RetryPolicy E) : Nat :=
  min (mulRound current (max policy.backoff_multiplier 1)) policy.max_backoff

/-- Observable outcome of one run of the retry loop: the result (`none` when
the fuel bound was hit before the loop returned), the number of times the
operation was invoked, and the sleeps performed, in order. -/
structure RetryRun (E T : Type) where
  result : Option (Except E T)
  invocations : Nat
  sleeps : List Nat

/-- Embeds the loop of `retry_with_policy` (src/retry.rs:107-123). The
`FnMut` operation is an indexed family `op`: invocation number `k + 1`
returns `op k`. `fuel` bounds the number of iterations (the source loop may
run forever under an unlimited policy); `attempts` and `backoff` are the
loop-carried state. -/
def retryLoop {E T : Type} (policy : RetryPolicy E) (op : Nat → Except E T) :
    Nat → Nat → Nat → RetryRun E T
  | _, attempts, 0 => ⟨none, attempts, []⟩
  | backoff, attempts, fuel + 1 =>
    let attempts' := attempts + 1
    match op attempts with
    | .ok value => ⟨some (.ok value), attempts', []⟩
    | .error e =>
      let exhausted : Bool :=
        match policy.max_attempts with
        | .unlimited => false
        | .finite max_attempts => decide (max_attempts ≤ attempts')
      if exhausted || !policy.is_retryable e then ⟨some (.error e), attempts', []⟩
      else
        let rest := retryLoop policy op (next_backoff backoff policy) attempts' fuel
        ⟨rest.result, rest.invocations, backoff :: rest.sleeps⟩

/-- Embeds `retry_with_policy` (src/retry.rs:95-124): starts the loop with
zero attempts and `initial_backoff.min(max_backoff)` (src/retry.rs:104). -/
def retry_with_policy {E T : Type} (policy : RetryPolicy E) (op : Nat → Except E T)
    (fuel : Nat) : RetryRun E T :=
  retryLoop policy op (min policy.initial_backoff policy.max_backoff) 0 fuel

/-! ## Discovery cache (`src/discover.rs`, `src/_discover.rs`) -/

/-- Embeds `DiscoveryCacheFile` (src/discover.rs:18-23): capture timestamp
(`chrono::DateTime<Utc>`, modelled as nanoseconds since the epoch) and the
descriptor list. -/
structure DiscoveryCacheFile where
  updated_at : Int
  resources : List APIResource
deriving DecidableEq, Repr

/-- Embeds the strict `load_discovery_cache` (src/discover.rs:26-29).
`fsRead` models `fs::read_to_string` (`none` = missing/unreadable file) and
`parse` models `serde_json::from_str` (`none` = malformed content); the
`anyhow` contexts become the error strings. -/
def load_discovery_cache (fsRead : String → Option String)
    (parse : String → Option DiscoveryCacheFile) (path : String) :
    Except String DiscoveryCacheFile :=
  match fsRead path with
  | none => .error "Failed to read discovery cache file"
  | some cache_data =>
    match parse cache_data with
    | none => .error "Failed to parse discovery cache file"
    | some cache => .ok cache

/-- Filesystem operations issued by the cache writer, in program order. -/
inductive FsOp where
  | createDirAll (dir : String)
  | writeFile (path : String) (data : List Nat)
  | renameFile (src dst : String)
deriving DecidableEq, Repr

/-- Embeds `save_discovery_cache` (src/discover.rs:32-49) as the sequence of
filesystem operations it issues: `create_dir_all` on the parent (when the
path has one), then one `fs::write` of the serialized snapshot straight to
the target path. `serialize` models `serde_json::to_string` (file contents
are byte lists), `now` models `Utc::now()`, and `parent` mirrors
`path.parent()`. -/
def save_discovery_cache (serialize : DiscoveryCacheFile → List Nat) (now : Int)
    (path : String) (parent : Option String) (resources : List APIResource) : List FsOp :=
  (match parent with
   | some dir => [FsOp.createDirAll dir]
   | none => [])
  ++ [FsOp.writeFile path (serialize ⟨now, resources⟩)]

/-- File contents after one filesystem operation: `create_dir_all` does not
touch file contents, `write` replaces the written path, `rename src dst`
moves the contents of `src` onto `dst` and removes `src`. -/
def applyFsOp (files : String → Option (List Nat)) : FsOp → String → Option (List Nat)
  | .createDirAll _ => files
  | .writeFile p data => fun q => if q = p then some data else files q
  | .renameFile src dst => fun q =>
    if q = dst then files src else if q = src then none else files q

/-- File contents after a sequence of filesystem operations. -/
def applyFsOps (files : String → Option (List Nat)) (ops : List FsOp) :
    String → Option (List Nat) :=
  ops.foldl applyFsOp files

/-- Formalizes the write-then-rename discipline claimed of the cache writer:
some operation renames onto the target, and no operation writes the target
directly. -/
def writes_via_temp_rename (ops : List FsOp) (target : String) : Bool :=
  ops.any (fun op => match op with
    | .renameFile _ dst => dst == target
    | _ => false)
  && ops.all (fun op => match op with
    | .writeFile p _ => p != target
    | _ => true)

/-- Whether some operation writes the target path directly (an `fs::write`
that a concurrent reader can observe half-done). -/
def writes_target_directly (ops : List FsOp) (target : String) : Bool :=
  ops.any (fun op => match op with
    | .writeFile p _ => p == target
    | _ => false)

/-- Largest span representable by `chrono::TimeDelta` (`i64::MAX`
milliseconds plus `999_999` nanoseconds), in nanoseconds:
`i64::MAX = 9223372036854775807` splits into seconds and milliseconds. -/
def timeDeltaMaxNanos : Int := 9223372036854775 * 1000000000 + 807 * 1000000 + 999999

/-- Models `TimeDelta::from_std`: fails (`OutOfRangeError`) on a standard
duration larger than `TimeDelta::MAX`. -/
def timeDeltaFromStd (d : Nat) : Option Int :=
  if (d : Int) ≤ timeDeltaMaxNanos then some (d : Int) else none

/-- Errors of the cache-only resolution path (src/lib.rs:164-182), modelled
structurally: the propagated load failure, the expiry error (the `anyhow`
message interpolates exactly the path, the measured age and the configured
ttl), and a resolution failure from `resolve_all_targets`. -/
inductive CacheOnlyError where
  | loadFailed (msg : String)
  | expired (path : String) (age : Int) (ttl : Int)
  | resolveFailed (msg : String)
deriving DecidableEq, Repr

/-- Embeds `resolve_requested_resources_with_cache` (src/lib.rs:164-182):
strict load (`?` propagates), then the ttl check
(`cache_age > TimeDelta::from_std(ttl).unwrap_or(MAX)` fails hard), then
`resolve_all_targets` against the cached descriptors. The function takes no
live-discovery collaborator: it cannot touch the network. -/
def resolve_requested_resources_with_cache (fsRead : String → Option String)
    (parse : String → Option DiscoveryCacheFile) (now : Int)
    (spec : ResourceTargetSpec) (cache_path : String) (cache_ttl : Option Nat) :
    Except CacheOnlyError (List APIResource) :=
  match load_discovery_cache fsRead parse cache_path with
  | .error msg => .error (.loadFailed msg)
  | .ok cache =>
    match cache_ttl with
    | some ttl =>
      let cache_age := now - cache.updated_at
      let ttlDelta := (timeDeltaFromStd ttl).getD timeDeltaMaxNanos
      if cache_age > ttlDelta then .error (.expired cache_path cache_age ttlDelta)
      else (resolve_all_targets spec cache.resources).mapError CacheOnlyError.resolveFailed
    | none => (resolve_all_targets spec cache.resources).mapError CacheOnlyError.resolveFailed

/-- Modelled from the spec: `crate::match_resource`, called by
`match_all_targets` (src/_discover.rs:82), is not among the provided
sources. Spec §4.3: the token matches the plural name, the singular name,
any short name, or `"<plural>.<group>"`. -/
def match_resource (target : String) (api_resource : APIResource) : Bool :=
  api_resource.name == target
    || api_resource.singular_name == target
    || (match api_resource.short_names with
        | some short_names => short_names.contains target
        | none => false)
    || (match api_resource.group with
        | some group => (api_resource.name ++ "." ++ group) == target
        | none => false)

/-- Insertion into the association list modelling the `HashMap` of
`match_all_targets`: `entry(key).or_insert(value)` keeps an existing entry. -/
def insertIfAbsent (entries : List (String × APIResource)) (key : String)
    (value : APIResource) : List (String × APIResource) :=
  if entries.any (fun entry => entry.1 == key) then entries
  else entries ++ [(key, value)]

/-- Embeds `match_all_targets` (src/_discover.rs:72-101): resolve each
token in order, collecting matches into a map keyed by plural name
(`entry(name).or_insert(..)`) and misses into `unresolved`; fail with all
unresolved tokens, or return the map's values. `HashMap` iteration order is
unspecified in Rust; the model fixes insertion order. -/
def match_all_targets (targets : List String) (resources : List APIResource) :
    Except String (List APIResource) :=
  let acc := targets.foldl
    (fun (acc : List (String × APIResource) × List String) target =>
      match resources.find? (fun api_resource => match_resource target api_resource) with
      | some api_resource => (insertIfAbsent acc.1 api_resource.name api_resource, acc.2)
      | none => (acc.1, acc.2 ++ [target]))
    ([], [])
  if acc.2.isEmpty then .ok (acc.1.map Prod.snd)
  else .error ("resource not found: " ++ String.intercalate ", " acc.2)

/-- Errors of the orchestrated resolution (src/discover.rs:53-105),
modelled structurally: a propagated cache-load failure (the `?` on
src/discover.rs:65), an unresolved-targets failure from
`match_all_targets`, or the live-discovery error wrapped with its
explanatory context string. The live error itself is abstracted to a
string. -/
inductive ResolveError where
  | cacheLoad (msg : String)
  | unresolved (msg : String)
  | discovery (ctx : String) (source : String)
deriving DecidableEq, Repr

/-- Embeds the load step of `resolve_requested_resources`
(src/discover.rs:63-65): `cache_path.map(load_discovery_cache).transpose()`
— `none` path gives `ok none`, a failing load gives the error itself. -/
def loaded_cache_of (fsRead : String → Option String)
    (parse : String → Option DiscoveryCacheFile) (cache_path : Option String) :
    Except String (Option DiscoveryCacheFile) :=
  match cache_path with
  | none => .ok none
  | some path => (load_discovery_cache fsRead parse path).map some

/-- Embeds the cache fast path of `resolve_requested_resources`
(src/discover.rs:67-84): with a loaded cache, when no ttl is configured, or
the cache age is within `TimeDelta::from_std(ttl).unwrap_or(MAX)`, a
successful `match_all_targets` against the cached descriptors short-circuits
the call. -/
def fresh_cache_hit (now : Int) (targets : List String) (cache_ttl : Option Nat) :
    Option DiscoveryCacheFile → Option (List APIResource)
  | none => none
  | some cache =>
    match cache_ttl with
    | some ttl =>
      if now - cache.updated_at ≤ (timeDeltaFromStd ttl).getD timeDeltaMaxNanos then
        (match_all_targets targets cache.resources).toOption
      else none
    | none => (match_all_targets targets cache.resources).toOption

deriving instance DecidableEq for Except

/-- Outcome of the orchestrated resolution: the result, and whether the
live-discovery collaborator was invoked. -/
structure ResolveOutcome where
  result : Except ResolveError (List APIResource)
  usedLive : Bool
deriving DecidableEq, Repr

/-- Embeds `resolve_requested_resources` (src/discover.rs:53-105). `live`
is the outcome `DiscoverClient::list_api_resources` would produce if
invoked; `usedLive` records whether the code reaches that call. Empty
targets return early; a failing cache load propagates through the `?` on
src/discover.rs:65; a fresh cache hit returns without live discovery; on a
live failure the loaded cache (however stale) is retried, and only if that
fails too is the discovery error returned with explanatory context. The
opportunistic `save_discovery_cache` on success (src/discover.rs:91-93) has
its result discarded by the source (`let _ =`), so it does not appear in
the outcome. -/
def resolve_requested_resources (fsRead : String → Option String)
    (parse : String → Option DiscoveryCacheFile) (now : Int)
    (live : Except String (List APIResource)) (targets : List String)
    (cache_path : Option String) (cache_ttl : Option Nat) : ResolveOutcome :=
  if targets.isEmpty then ⟨.ok [], false⟩
  else
    match loaded_cache_of fsRead parse cache_path with
    | .error msg => ⟨.error (.cacheLoad msg), false⟩
    | .ok loaded =>
      match fresh_cache_hit now targets cache_ttl loaded with
      | some matched => ⟨.ok matched, false⟩
      | none =>
        match live with
        | .ok resources => ⟨(match_all_targets targets resources).mapError .unresolved, true⟩
        | .error err =>
          match loaded with
          | some cache =>
            match match_all_targets targets cache.resources with
            | .ok matched => ⟨.ok matched, true⟩
            | .error _ =>
              ⟨.error (.discovery "failed to discover Kubernetes API resources" err), true⟩
          | none =>
            ⟨.error (.discovery "failed to discover Kubernetes API resources" err), true⟩

/-- Embeds the `Resource` implementation for `DynamicObject`
(src/dynamic.rs:35-82). Each function's `Option::unwrap` panics are
modelled by `Option.none`: `group` unwraps the descriptor's group (mapping
the "core" group to the empty string), `version` unwraps the version, and
`api_version` unwraps the group and then the version on both branches. -/
def dynamicGroup (dt : APIResource) : Option String :=
  match dt.group with
  | none => none
  | some group => some (if group == "core" then "" else group)

/-- Embeds `Resource::version` for `DynamicObject` (src/dynamic.rs:49-51). -/
def dynamicVersion (dt : APIResource) : Option String :=
  dt.version

/-- Embeds `Resource::kind` for `DynamicObject` (src/dynamic.rs:53-55). -/
def dynamicKind (dt : APIResource) : String :=
  dt.kind

/-- Embeds `Resource::api_version` for `DynamicObject`
(src/dynamic.rs:57-69): `"<version>"` for the "core" group, else
`"<group>/<version>"`, unwrapping both options. -/
def dynamicApiVersion (dt : APIResource) : Option String :=
  match dt.group with
  | none => none
  | some group =>
    if group == "core" then dt.version
    else
      match dt.version with
      | none => none
      | some version => some (group ++ "/" ++ version)

/-- Embeds `Resource::plural` for `DynamicObject` (src/dynamic.rs:71-73). -/
def dynamicPlural (dt : APIResource) : String :=
  dt.name

/-! ## Theorems: retry engine -/

theorem le_mulRound (x : Nat) (q : Rat) (hq : 1 ≤ q) : x ≤ mulRound x q := by
  have hden : (0 : Int) < (q.den : Int) := by exact_mod_cast q.pos
  have hnum : (q.den : Int) ≤ q.num := by
    have := Rat.le_def.mp hq
    simpa using this
  have hx : (0 : Int) ≤ (x : Int) := Int.ofNat_nonneg x
  have hstep : (x : Int) * (2 * (q.den : Int)) ≤ 2 * (x : Int) * q.num + (q.den : Int) := by
    nlinarith
  have hdiv : (x : Int) ≤ (2 * (x : Int) * q.num + (q.den : Int)) / (2 * (q.den : Int)) :=
    Int.le_ediv_iff_mul_le (by positivity) |>.mpr hstep
  calc x = ((x : Int)).toNat := by simp
    _ ≤ _ := Int.toNat_le_toNat hdiv

theorem le_next_backoff {E : Type} (policy : RetryPolicy E) (backoff : Nat)
    (hb : backoff ≤ policy.max_backoff) : backoff ≤ next_backoff backoff policy :=
  le_min (le_mulRound backoff _ (le_max_right policy.backoff_multiplier 1)) hb

theorem next_backoff_le {E : Type} (policy : RetryPolicy E) (backoff : Nat) :
    next_backoff backoff policy ≤ policy.max_backoff :=
  min_le_right _ _

theorem retryLoop_all_retryable {E T : Type} (policy : RetryPolicy E)
    (op : Nat → Except E T) (err : Nat → E) (n : Nat)
    (hmax : policy.max_attempts = .finite n)
    (hop : ∀ k, op k = .error (err k))
    (hr : ∀ k, policy.is_retryable (err k) = true) :
    ∀ fuel attempts backoff, attempts < n → n - attempts ≤ fuel →
      (retryLoop policy op backoff attempts fuel).result = some (.error (err (n - 1)))
      ∧ (retryLoop policy op backoff attempts fuel).invocations = n := by
  intro fuel
  induction fuel with
  | zero => intro attempts backoff hlt hle; omega
  | succ fuel ih =>
    intro attempts backoff hlt _
    by_cases hend : n ≤ attempts + 1
    · have hn : attempts + 1 = n := by omega
      have hdec : decide (n ≤ attempts + 1) = true := decide_eq_true hend
      simp only [retryLoop, hop attempts, hmax, hdec, hr attempts, Bool.not_true,
        Bool.or_false, if_true]
      constructor
      · have : attempts = n - 1 := by omega
        rw [this]
      · omega
    · have hdec : decide (n ≤ attempts + 1) = false := decide_eq_false hend
      simp only [retryLoop, hop attempts, hmax, hdec, hr attempts, Bool.not_true,
        Bool.or_false, if_false]
      exact ih (attempts + 1) (next_backoff backoff policy) (by omega) (by omega)

/-- C1: for every retry policy with a finite attempt limit `n` and every
operation that fails on every invocation with an error the policy's
classifier marks retryable, `retry_with_policy` invokes the operation
exactly `n` times and returns the error produced by the `n`-th invocation
unchanged, with no wrapping. (`fuel ≥ n` suffices for the loop to run to
its own return.) -/
theorem retry_finite_exhaustion_returns_nth_error {E T : Type} (policy : RetryPolicy E)
    (op : Nat → Except E T) (err : Nat → E) (n fuel : Nat)
    (hmax : policy.max_attempts = .finite n) (hn : 0 < n)
    (hop : ∀ k, op k = .error (err k))
    (hr : ∀ k, policy.is_retryable (err k) = true)
    (hfuel : n ≤ fuel) :
    (retry_with_policy policy op fuel).result = some (.error (err (n - 1)))
    ∧ (retry_with_policy policy op fuel).invocations = n :=
  retryLoop_all_retryable policy op err n hmax hop hr fuel 0
    (min policy.initial_backoff policy.max_backoff) hn (by omega)

theorem retry_finite_exhaustion_returns_nth_error_witness :
    (retry_with_policy (⟨.finite 3, 0, 0, 1, fun _ => true⟩ : RetryPolicy Nat)
      (fun k => (.error k : Except Nat Unit)) 3).result = some (.error 2)
    ∧ (retry_with_policy (⟨.finite 3, 0, 0, 1, fun _ => true⟩ : RetryPolicy Nat)
      (fun k => (.error k : Except Nat Unit)) 3).invocations = 3 :=
  retry_finite_exhaustion_returns_nth_error _ _ (fun k => k) 3 3 rfl (by decide)
    (fun _ => rfl) (fun _ => rfl) (le_refl 3)

/-- C7: for every retry policy (finite or unlimited limit) and every
operation whose first invocation fails with an error the classifier marks
non-retryable, `retry_with_policy` invokes the operation exactly once and
returns that error unchanged. -/
theorem retry_nonretryable_single_invocation {E T : Type} (policy : RetryPolicy E)
    (op : Nat → Except E T) (e : E) (fuel : Nat)
    (hop : op 0 = .error e) (hr : policy.is_retryable e = false)
    (hfuel : 0 < fuel) :
    (retry_with_policy policy op fuel).result = some (.error e)
    ∧ (retry_with_policy policy op fuel).invocations = 1 := by
  obtain ⟨fuel, rfl⟩ : ∃ f, fuel = f + 1 := ⟨fuel - 1, by omega⟩
  simp [retry_with_policy, retryLoop, hop, hr]

theorem retry_nonretryable_single_invocation_witness :
    (retry_with_policy (⟨.unlimited, 0, 0, 1, fun e => e == 0⟩ : RetryPolicy Nat)
      (fun _ => (.error 7 : Except Nat Unit)) 5).result = some (.error 7)
    ∧ (retry_with_policy (⟨.unlimited, 0, 0, 1, fun e => e == 0⟩ : RetryPolicy Nat)
      (fun _ => (.error 7 : Except Nat Unit)) 5).invocations = 1 :=
  retry_nonretryable_single_invocation _ _ 7 5 rfl (by decide) (by decide)

theorem retryLoop_sleeps_invariant {E T : Type} (policy : RetryPolicy E)
    (op : Nat → Except E T) :
    ∀ fuel attempts backoff, backoff ≤ policy.max_backoff →
      (retryLoop policy op backoff attempts fuel).sleeps.Chain' (· ≤ ·)
      ∧ ∀ w ∈ (retryLoop policy op backoff attempts fuel).sleeps,
          backoff ≤ w ∧ w ≤ policy.max_backoff := by
  intro fuel
  induction fuel with
  | zero =>
    intro attempts backoff _
    simp [retryLoop]
  | succ fuel ih =>
    intro attempts backoff hb
    cases hop : op attempts with
    | ok value => simp [retryLoop, hop]
    | error e =>
      by_cases hcond :
          ((match policy.max_attempts with
            | .unlimited => false
            | .finite max_attempts => decide (max_attempts ≤ attempts + 1))
           || !policy.is_retryable e) = true
      · simp [retryLoop, hop, hcond]
      · have hcond' :
            ((match policy.max_attempts with
              | .unlimited => false
              | .finite max_attempts => decide (max_attempts ≤ attempts + 1))
             || !policy.is_retryable e) = false := by
          revert hcond
          cases ((match policy.max_attempts with
            | .unlimited => false
            | .finite max_attempts => decide (max_attempts ≤ attempts + 1))
           || !policy.is_retryable e) <;> simp
        have hnb : next_backoff backoff policy ≤ policy.max_backoff :=
          next_backoff_le policy backoff
        obtain ⟨ihchain, ihmem⟩ := ih (attempts + 1) (next_backoff backoff policy) hnb
        have hle : backoff ≤ next_backoff backoff policy := le_next_backoff policy backoff hb
        constructor
        · simp only [retryLoop, hop, hcond']
          refine List.chain'_cons'.mpr ⟨?_, ihchain⟩
          intro y hy
          have hmem := ihmem y (List.mem_of_mem_head? hy)
          omega
        · simp only [retryLoop, hop, hcond']
          intro w hw
          rcases List.mem_cons.mp hw with h | h
          · omega
          · have := ihmem w h
            omega

/-- C6: within every run of the retry loop the sequence of backoff waits is
monotonically non-decreasing and never exceeds `max_backoff`; in particular
with initial = 200ms, multiplier = 2.0 and max = 5s (in nanoseconds) the
waits before successive retries are 200ms, 400ms, 800ms, 1600ms, 3200ms,
5000ms, 5000ms, and so on. -/
theorem backoff_monotone_and_capped :
    (∀ (E T : Type) (policy : RetryPolicy E) (op : Nat → Except E T) (fuel : Nat),
      (retry_with_policy policy op fuel).sleeps.Chain' (· ≤ ·)
      ∧ ∀ w ∈ (retry_with_policy policy op fuel).sleeps, w ≤ policy.max_backoff)
    ∧ (retry_with_policy
        (⟨.unlimited, 200000000, 5000000000, 2, fun _ => true⟩ : RetryPolicy Unit)
        (fun _ => (.error () : Except Unit Unit)) 8).sleeps
      = [200000000, 400000000, 800000000, 1600000000, 3200000000,
         5000000000, 5000000000, 5000000000] := by
  constructor
  · intro E T policy op fuel
    obtain ⟨hchain, hmem⟩ := retryLoop_sleeps_invariant policy op fuel 0
      (min policy.initial_backoff policy.max_backoff) (min_le_right _ _)
    exact ⟨hchain, fun w hw => (hmem w hw).2⟩
  · decide

theorem backoff_monotone_and_capped_witness :
    (200000000 : Nat) ≤
      (⟨.unlimited, 200000000, 5000000000, 2, fun _ => true⟩ : RetryPolicy Unit).max_backoff :=
  (backoff_monotone_and_capped.1 Unit Unit
    ⟨.unlimited, 200000000, 5000000000, 2, fun _ => true⟩
    (fun _ => (.error () : Except Unit Unit)) 8).2 200000000 (by decide)

/-! ## Theorems: resource resolver -/

/-- Concrete descriptor used by several concrete evaluations: the Pod
resource of the core v1 API. -/
def podResource : APIResource :=
  ⟨none, some "v1", "Pod", "pods", "pod", some ["po"], true⟩

theorem resolve_all_targets_allOf_foldl (resources : List APIResource) :
    ∀ (targets : List String) (matched : List APIResource) (unmatched : List String),
      targets.foldl
        (fun (acc : List APIResource × List String) target =>
          match resolve_target target resources with
          | some api_resource => (acc.1 ++ [api_resource], acc.2)
          | none => (acc.1, acc.2 ++ [target]))
        (matched, unmatched)
      = (matched ++ targets.filterMap (fun t => resolve_target t resources),
         unmatched ++ targets.filter (fun t => (resolve_target t resources).isNone)) := by
  intro targets
  induction targets with
  | nil => intro matched unmatched; simp
  | cons t ts ih =>
    intro matched unmatched
    cases h : resolve_target t resources with
    | some api_resource => simp [List.foldl_cons, h, ih, List.filterMap_cons, List.filter_cons]
    | none => simp [List.foldl_cons, h, ih, List.filterMap_cons, List.filter_cons]

/-- C2 (amended): resolving an `AllOf` spec resolves each token in order;
if any token fails to match, the result is an error naming the complete
list of unresolved tokens in the order the tokens were given; if all tokens
match, the result is the resolved descriptors in token order, without
deduplication. -/
theorem resolve_all_targets_allOf_characterization
    (targets : List String) (resources : List APIResource) :
    resolve_all_targets (.allOf targets) resources =
      (if (targets.filter (fun t => (resolve_target t resources).isNone)).isEmpty
       then .ok (targets.filterMap (fun t => resolve_target t resources))
       else .error ("the following requested resources could not be resolved: "
         ++ String.intercalate ", "
           (targets.filter (fun t => (resolve_target t resources).isNone)))) := by
  simp only [resolve_all_targets, resolve_all_targets_allOf_foldl, List.nil_append]

/-- C2 (counterexample): against the Pod descriptor, `AllOf(["pods","po"])`
returns the Pod descriptor twice — not deduplicated by plural name as the
claim states; and `AllOf(["zz","aa"])` against an empty descriptor list
reports the unresolved tokens as "zz, aa", in given order, not in the
sorted order "aa, zz" the claim states. -/
theorem resolve_all_targets_allOf_counterexample :
    resolve_all_targets (.allOf ["pods", "po"]) [podResource]
      = .ok [podResource, podResource]
    ∧ ([podResource, podResource] : List APIResource) ≠ [podResource]
    ∧ resolve_all_targets (.allOf ["zz", "aa"]) []
      = .error "the following requested resources could not be resolved: zz, aa"
    ∧ ("the following requested resources could not be resolved: zz, aa"
        ≠ "the following requested resources could not be resolved: aa, zz") := by
  refine ⟨by decide, by decide, by decide, by decide⟩

/-- C10: a descriptor whose `singular_name` is the empty string matches the
empty-string token (the `singular_name == target` disjunct), so
`resolve_target` of the empty token over a list containing such a
descriptor returns the first matching descriptor rather than none. -/
theorem empty_token_matches_empty_singular :
    (∀ api_resource : APIResource, api_resource.singular_name = "" →
      resource_matches_target "" api_resource = true)
    ∧ ∀ resources : List APIResource,
        (∃ r ∈ resources, r.singular_name = "") →
        ∃ r, resolve_target "" resources = some r
          ∧ resource_matches_target "" r = true := by
  have hmatch : ∀ api_resource : APIResource, api_resource.singular_name = "" →
      resource_matches_target "" api_resource = true := by
    intro r h
    simp [resource_matches_target, h]
  refine ⟨hmatch, ?_⟩
  intro resources hex
  obtain ⟨r, hmem, hsing⟩ := hex
  have hsome : (resolve_target "" resources).isSome := by
    rw [resolve_target, List.find?_isSome]
    exact ⟨r, hmem, hmatch r hsing⟩
  obtain ⟨r', hr'⟩ := Option.isSome_iff_exists.mp hsome
  refine ⟨r', hr', ?_⟩
  have : resources.find? (fun a => resource_matches_target "" a) = some r' := hr'
  exact List.find?_some this

theorem empty_token_matches_empty_singular_witness :
    ∃ r, resolve_target "" [(⟨none, none, "Kind", "kinds", "", none, false⟩ : APIResource)]
        = some r
      ∧ resource_matches_target "" r = true :=
  empty_token_matches_empty_singular.2
    [⟨none, none, "Kind", "kinds", "", none, false⟩]
    ⟨⟨none, none, "Kind", "kinds", "", none, false⟩, by decide, rfl⟩

/-! ## Theorems: DynamicObject resource implementation -/

/-- C9: the `Resource` implementation for `DynamicObject` is partial on
descriptors with absent optional fields: with `group = None` the `group`
and `api_version` functions panic (modelled `none`), with `version = None`
the `version` and `api_version` functions panic, and all of them are total
when both fields are present. -/
theorem dynamic_object_requires_group_and_version :
    ∀ dt : APIResource,
      (dt.group = none → dynamicGroup dt = none ∧ dynamicApiVersion dt = none)
      ∧ (dt.version = none → dynamicVersion dt = none ∧ dynamicApiVersion dt = none)
      ∧ (dt.group.isSome → dt.version.isSome →
          (dynamicGroup dt).isSome ∧ (dynamicVersion dt).isSome
          ∧ (dynamicApiVersion dt).isSome) := by
  intro dt
  refine ⟨?_, ?_, ?_⟩
  · intro hg
    simp [dynamicGroup, dynamicApiVersion, hg]
  · intro hv
    cases hg : dt.group with
    | none => simp [dynamicVersion, dynamicApiVersion, hg, hv]
    | some g =>
      refine ⟨hv, ?_⟩
      simp only [dynamicApiVersion, hg, hv]
      split <;> rfl
  · intro hg hv
    obtain ⟨g, hg⟩ := Option.isSome_iff_exists.mp hg
    obtain ⟨v, hv⟩ := Option.isSome_iff_exists.mp hv
    refine ⟨?_, ?_, ?_⟩
    · simp [dynamicGroup, hg]
    · simp [dynamicVersion, hv]
    · simp only [dynamicApiVersion, hg, hv]
      split <;> simp

theorem dynamic_object_requires_group_and_version_witness :
    (dynamicGroup (⟨none, some "v1", "Pod", "pods", "pod", none, true⟩ : APIResource) = none
      ∧ dynamicApiVersion (⟨none, some "v1", "Pod", "pods", "pod", none, true⟩ : APIResource)
        = none)
    ∧ (dynamicVersion
        (⟨some "apps", none, "Deployment", "deployments", "deployment", none, true⟩
          : APIResource) = none
      ∧ dynamicApiVersion
        (⟨some "apps", none, "Deployment", "deployments", "deployment", none, true⟩
          : APIResource) = none) :=
  ⟨(dynamic_object_requires_group_and_version _).1 rfl,
   (dynamic_object_requires_group_and_version _).2.1 rfl⟩

/-! ## Theorems: discovery cache -/

/-- C8: cache-only resolution touches no live-discovery collaborator (none
appears in its arguments) and never swallows a cache fault: a missing or
malformed cache file yields a hard error; with a ttl supplied and the
snapshot age above it, a hard error carrying the path, the measured age and
the configured ttl; otherwise the spec is resolved against the cached
descriptors. -/
theorem cache_only_resolution_strict (fsRead : String → Option String)
    (parse : String → Option DiscoveryCacheFile) (now : Int)
    (spec : ResourceTargetSpec) (path : String) (cacheTtl : Option Nat) :
    (∀ msg, load_discovery_cache fsRead parse path = .error msg →
      resolve_requested_resources_with_cache fsRead parse now spec path cacheTtl
        = .error (.loadFailed msg))
    ∧ (∀ cache ttl, load_discovery_cache fsRead parse path = .ok cache →
        cacheTtl = some ttl →
        now - cache.updated_at > (timeDeltaFromStd ttl).getD timeDeltaMaxNanos →
        resolve_requested_resources_with_cache fsRead parse now spec path cacheTtl
          = .error (.expired path (now - cache.updated_at)
              ((timeDeltaFromStd ttl).getD timeDeltaMaxNanos)))
    ∧ (∀ cache ttl, load_discovery_cache fsRead parse path = .ok cache →
        cacheTtl = some ttl →
        now - cache.updated_at ≤ (timeDeltaFromStd ttl).getD timeDeltaMaxNanos →
        resolve_requested_resources_with_cache fsRead parse now spec path cacheTtl
          = (resolve_all_targets spec cache.resources).mapError CacheOnlyError.resolveFailed)
    ∧ (∀ cache, load_discovery_cache fsRead parse path = .ok cache →
        cacheTtl = none →
        resolve_requested_resources_with_cache fsRead parse now spec path cacheTtl
          = (resolve_all_targets spec cache.resources).mapError CacheOnlyError.resolveFailed) := by
  refine ⟨?_, ?_, ?_, ?_⟩
  · intro msg hload
    simp [resolve_requested_resources_with_cache, hload]
  · intro cache ttl hload httl hgt
    subst httl
    simp only [resolve_requested_resources_with_cache, hload]
    rw [if_pos hgt]
  · intro cache ttl hload httl hle
    subst httl
    simp only [resolve_requested_resources_with_cache, hload]
    rw [if_neg (not_lt.mpr hle)]
  · intro cache hload httl
    subst httl
    simp [resolve_requested_resources_with_cache, hload]

theorem cache_only_resolution_strict_witness :
    resolve_requested_resources_with_cache (fun _ => none) (fun _ => none) 0
      .allResources "missing.json" none
      = .error (.loadFailed "Failed to read discovery cache file") :=
  (cache_only_resolution_strict (fun _ => none) (fun _ => none) 0
    .allResources "missing.json" none).1 _ rfl

/-- C3 (divergence witness): with a configured cache path whose file is
missing (`fs::read_to_string` fails), `resolve_requested_resources` returns
the cache-load error through the `?` on src/discover.rs:65 without ever
reaching live discovery — here live discovery would have succeeded with the
Pod descriptor, yet the call fails and `usedLive` is false. The claim (and
the function's own doc comment) say a failed load is treated as a cache
miss and resolution proceeds to live discovery. -/
theorem resolve_propagates_cache_load_error :
    resolve_requested_resources (fun _ => none) (fun _ => none) 0
      (.ok [podResource]) ["pods"] (some "ctx.json") none
      = ⟨.error (.cacheLoad "Failed to read discovery cache file"), false⟩ := by
  decide

/-- C5: when live discovery fails (and the fresh-cache fast path did not
already answer), a successfully loaded cache — fresh or stale — against
which `match_all_targets` succeeds yields that resolved list; with no
loaded cache, or with resolution against it failing too, the original
discovery error is returned wrapped with the explanatory context. -/
theorem resolve_falls_back_to_loaded_cache (fsRead : String → Option String)
    (parse : String → Option DiscoveryCacheFile) (now : Int) (err : String)
    (targets : List String) (cache_path : Option String) (cacheTtl : Option Nat)
    (loaded : Option DiscoveryCacheFile)
    (hne : targets ≠ [])
    (hload : loaded_cache_of fsRead parse cache_path = .ok loaded)
    (hmiss : fresh_cache_hit now targets cacheTtl loaded = none) :
    (∀ cache matched, loaded = some cache →
      match_all_targets targets cache.resources = .ok matched →
      resolve_requested_resources fsRead parse now (.error err) targets cache_path cacheTtl
        = ⟨.ok matched, true⟩)
    ∧ (∀ cache msg, loaded = some cache →
        match_all_targets targets cache.resources = .error msg →
        resolve_requested_resources fsRead parse now (.error err) targets cache_path cacheTtl
          = ⟨.error (.discovery "failed to discover Kubernetes API resources" err), true⟩)
    ∧ (loaded = none →
        resolve_requested_resources fsRead parse now (.error err) targets cache_path cacheTtl
          = ⟨.error (.discovery "failed to discover Kubernetes API resources" err), true⟩) := by
  have hempty : targets.isEmpty = false := by
    cases targets with
    | nil => exact absurd rfl hne
    | cons t ts => rfl
  refine ⟨?_, ?_, ?_⟩
  · intro cache matched hcache hmatch
    subst hcache
    simp [resolve_requested_resources, hempty, hload, hmiss, hmatch]
  · intro cache msg hcache hmatch
    subst hcache
    simp [resolve_requested_resources, hempty, hload, hmiss, hmatch]
  · intro hcache
    subst hcache
    simp [resolve_requested_resources, hempty, hload, hmiss]

theorem resolve_falls_back_to_loaded_cache_witness :
    resolve_requested_resources (fun _ => some "cached") (fun _ => some ⟨0, [podResource]⟩)
      10 (.error "boom") ["pods"] (some "ctx.json") (some 1)
      = ⟨.ok [podResource], true⟩ :=
  (resolve_falls_back_to_loaded_cache (fun _ => some "cached")
    (fun _ => some ⟨0, [podResource]⟩) 10 "boom" ["pods"] (some "ctx.json") (some 1)
    (some ⟨0, [podResource]⟩) (by decide) rfl (by decide)).1
    ⟨0, [podResource]⟩ [podResource] rfl (by decide)

/-- C4 (counterexample): at a concrete path with a parent directory,
`save_discovery_cache` issues exactly a `create_dir_all` and a single
`fs::write` straight to the target path: there is no write to a temporary
file followed by a rename onto the target (the discipline the claim
states), and the target path is written directly. -/
theorem save_discovery_cache_counterexample :
    save_discovery_cache (fun _ => [1, 2, 3]) 0 "dir/ctx.json" (some "dir") []
      = [.createDirAll "dir", .writeFile "dir/ctx.json" [1, 2, 3]]
    ∧ writes_via_temp_rename
        (save_discovery_cache (fun _ => [1, 2, 3]) 0 "dir/ctx.json" (some "dir") [])
        "dir/ctx.json" = false
    ∧ writes_target_directly
        (save_discovery_cache (fun _ => [1, 2, 3]) 0 "dir/ctx.json" (some "dir") [])
        "dir/ctx.json" = true := by
  refine ⟨by decide, by decide, by decide⟩

/-- C4 (amended): for every path and descriptor list,
`save_discovery_cache` creates the missing parent directory (when the path
has one), serializes a snapshot carrying the fresh timestamp, and writes
the serialized bytes directly to the target path in a single write — no
temporary file and no rename — after which the target holds the complete
serialized snapshot. -/
theorem save_discovery_cache_writes_directly
    (serialize : DiscoveryCacheFile → List Nat) (now : Int) (path : String)
    (parent : Option String) (resources : List APIResource)
    (files : String → Option (List Nat)) :
    applyFsOps files (save_discovery_cache serialize now path parent resources) path
      = some (serialize ⟨now, resources⟩)
    ∧ (∀ dir, parent = some dir →
        FsOp.createDirAll dir ∈ save_discovery_cache serialize now path parent resources)
    ∧ (save_discovery_cache serialize now path parent resources).all
        (fun op => match op with
          | .renameFile _ _ => false
          | _ => true) = true := by
  refine ⟨?_, ?_, ?_⟩
  · cases parent with
    | none => simp [save_discovery_cache, applyFsOps, applyFsOp]
    | some dir => simp [save_discovery_cache, applyFsOps, applyFsOp]
  · intro dir hdir
    subst hdir
    simp [save_discovery_cache]
  · cases parent with
    | none => simp [save_discovery_cache, List.all]
    | some dir => simp [save_discovery_cache, List.all]

theorem save_discovery_cache_writes_directly_witness :
    applyFsOps (fun _ => none)
      (save_discovery_cache (fun _ => [7]) 5 "a/b.json" (some "a") []) "a/b.json"
      = some [7]
    ∧ FsOp.createDirAll "a" ∈ save_discovery_cache (fun _ => [7]) 5 "a/b.json" (some "a") [] :=
  ⟨(save_discovery_cache_writes_directly (fun _ => [7]) 5 "a/b.json" (some "a") []
      (fun _ => none)).1,
   (save_discovery_cache_writes_directly (fun _ => [7]) 5 "a/b.json" (some "a") []
      (fun _ => none)).2.1 "a" rfl⟩
